import Mathlib

/-!
Shallow embedding of the two ComfyUI nodes in `nodes.py`
(`WanImageToVideoSVIProFLF` and `WanCutLastSlot`).

Modelling conventions:
- A torch 5-D tensor `[B, C, T, H, W]` is a `Tensor5`: its five sizes plus a
  total data function on indices (values outside the shape are irrelevant; all
  statements quantify only over in-range indices).  Element values are rationals
  (the float values appearing in the code - `0.0`, `1.0`, the Wan latent-format
  constants - are all exactly representable, and every operation performed is
  exact slicing / copying / affine rescaling).
- `.clone()` is the identity (the embedding is pure; ownership is not modelled).
- Python slicing `x[:, :, :n]`, `x[:, :, -n:]` (with `n > 0` wherever the code
  uses a negative bound), `torch.cat(..., dim=2)`, `Tensor.repeat(k,1,1,1,1)`
  and slice assignment `dst[:, :, -n:] = src[:, :, -n:]` become `sliceFirstT`,
  `sliceLastT`, `catT`, `repeatB` and `writeLastT`.
- Python exceptions (KeyError / TypeError on the latent dicts, RuntimeError on
  shape-incompatible `torch.cat` or broadcast-incompatible slice assignment)
  become `Except ExecError`.
- Latent containers (dicts with a `"samples"` key) are `LatentDict`; a missing
  key is `samples = none`; a missing optional node input is an outer `Option`.
- Devices and dtypes are not modelled (they carry no value-level content here).
-/

/-- A 5-dimensional tensor `[B, C, T, H, W]` with rational entries. -/
structure Tensor5 where
  B : Nat
  C : Nat
  T : Nat
  H : Nat
  W : Nat
  data : Nat → Nat → Nat → Nat → Nat → ℚ

/-- torch.zeros(B, C, T, H, W). -/
def zeros5 (B C T H W : Nat) : Tensor5 :=
  ⟨B, C, T, H, W, fun _ _ _ _ _ => 0⟩

/-- torch.ones((B, C, T, H, W)). -/
def ones5 (B C T H W : Nat) : Tensor5 :=
  ⟨B, C, T, H, W, fun _ _ _ _ _ => 1⟩

/-- Python `x[:, :, :n]` with `n ≥ 0`: the first `min n T` temporal slots. -/
def sliceFirstT (x : Tensor5) (n : Nat) : Tensor5 :=
  { x with T := min n x.T }

/-- Python `x[:, :, -n:]` for the guarded uses with `n > 0`: the last
`min n T` temporal slots.  (For `n = 0` Python would yield the whole tensor;
the code only slices with a strictly positive `n`, and we mirror that.) -/
def sliceLastT (x : Tensor5) (n : Nat) : Tensor5 :=
  if n = 0 then x
  else
    { x with
      T := min n x.T
      data := fun b c t h w => x.data b c (x.T - min n x.T + t) h w }

/-- torch.cat([x, y], dim=2); the caller (the embedding of `execute`) checks
the B/C/H/W compatibility that torch.cat enforces. -/
def catT (x y : Tensor5) : Tensor5 :=
  { x with
    T := x.T + y.T
    data := fun b c t h w =>
      if t < x.T then x.data b c t h w else y.data b c (t - x.T) h w }

/-- Tensor.repeat(k, 1, 1, 1, 1): tile `k` times along the batch axis. -/
def repeatB (x : Tensor5) (k : Nat) : Tensor5 :=
  { x with
    B := k * x.B
    data := fun b c t h w => x.data (b % x.B) c t h w }

/-- Slice assignment `dst[:, :, -n:] = src[:, :, -n:]` for `1 ≤ n ≤ dst.T` and
`n ≤ src.T`, with torch broadcasting of a batch-1 right-hand side; the caller
checks the batch compatibility that torch enforces. -/
def writeLastT (dst src : Tensor5) (n : Nat) : Tensor5 :=
  { dst with
    data := fun b c t h w =>
      if dst.T - n ≤ t ∧ t < dst.T then
        src.data (if src.B = 1 then 0 else b) c (src.T - n + (t - (dst.T - n))) h w
      else dst.data b c t h w }

/-- Slice assignment `x[:, :, :n] = v` with a scalar `v`. -/
def setFirstT (x : Tensor5) (n : Nat) (v : ℚ) : Tensor5 :=
  { x with
    data := fun b c t h w => if t < min n x.T then v else x.data b c t h w }

/-- Slice assignment `x[:, :, -n:] = v` with a scalar `v`, for `n > 0`. -/
def setLastT (x : Tensor5) (n : Nat) (v : ℚ) : Tensor5 :=
  { x with
    data := fun b c t h w =>
      if x.T - min n x.T ≤ t ∧ t < x.T then v else x.data b c t h w }

/-- Modelled from the spec: the per-channel means of the target latent format
(`comfy.latent_formats.Wan21`, an external collaborator of §6, not part of this
repository), the published Wan 2.1 VAE `latents_mean` constants. -/
def wanLatentsMean (c : Nat) : ℚ :=
  ([-0.7571, -0.7089, -0.9113, 0.1075, -0.1745, 0.9653, -0.1517, 1.5508,
    0.4134, -0.0715, 0.5517, -0.3632, -0.1922, -0.9497, 0.2503, -0.2921] :
    List ℚ).getD c 0

/-- Modelled from the spec: the per-channel standard deviations of the target
latent format (`comfy.latent_formats.Wan21`), the published Wan 2.1 VAE
`latents_std` constants. -/
def wanLatentsStd (c : Nat) : ℚ :=
  ([2.8184, 1.4541, 2.3275, 2.6558, 1.2196, 1.7708, 2.6052, 2.0743,
    3.2687, 2.1526, 2.8652, 1.5579, 1.6382, 1.1253, 2.8251, 1.9160] :
    List ℚ).getD c 1

/-- Modelled from the spec: `comfy.latent_formats.Wan21().process_out`, the
collaborator "zero-signal encode" transform of §6 (not part of this
repository): the per-channel affine de-normalization
`x ↦ x * latents_std[c] / scale_factor + latents_mean[c]` with
`scale_factor = 1.0`. -/
def wan21ProcessOut (x : Tensor5) : Tensor5 :=
  { x with
    data := fun b c t h w =>
      x.data b c t h w * wanLatentsStd c + wanLatentsMean c }

/-- The Python exceptions the node code can raise. -/
inductive ExecError where
  /-- `anchor_samples` is `None` (required input missing): `TypeError` on
  `anchor_samples["samples"]`. -/
  | missingAnchor : ExecError
  /-- A latent container that is accessed lacks the `"samples"` key:
  `KeyError`. -/
  | missingSamplesKey : ExecError
  /-- `torch.cat([anchor_latent, motion_latent], dim=2)` with mismatched
  B/C/H/W: `RuntimeError`. -/
  | catShapeMismatch : ExecError
  /-- `image_cond_latent[:, :, -end_t_fix:] = end_latent[:, :, -end_t_fix:]`
  with a right-hand batch size that is neither 1 nor the working batch:
  `RuntimeError` (broadcast failure). -/
  | endAssignBroadcastMismatch : ExecError
deriving DecidableEq, Repr

/-- A ComfyUI latent container: a dict which may or may not carry the
`"samples"` key. -/
structure LatentDict where
  samples : Option Tensor5

/-- The value-level content of `WanImageToVideoSVIProFLF.execute`'s output:
the tensors attached to the conditioning (`concat_latent_image`,
`concat_mask`, identically on positive and negative) and the output latent. -/
structure ExecOutput where
  image_cond_latent : Tensor5
  mask : Tensor5
  empty_latent : Tensor5

/-- Line 120, `total_latents = (length - 1) // 4 + 1`, over ℤ with Python's
floor division (`Int.fdiv`). -/
def totalLatentsZ (length : Int) : Int :=
  (length - 1).fdiv 4 + 1

/-- Line 120 over ℕ; for `length ≥ 1` (the schema minimum) this agrees with
the Python computation. -/
def totalLatentsN (length : Nat) : Nat :=
  (length - 1) / 4 + 1

namespace WanImageToVideoSVIProFLF

/-- Lines 128-148: the base temporal block (anchor plus optional motion tail
from `prev_samples`). -/
def mkBase (anchor : Tensor5) (prev : Option LatentDict) (mlc : Nat) :
    Except ExecError Tensor5 :=
  match prev with
  | none => .ok anchor
  | some pd =>
    if mlc = 0 then .ok anchor
    else
      match pd.samples with
      | none => .error .missingSamplesKey
      | some prevL =>
        let motion_count := min mlc prevL.T
        if 0 < motion_count then
          if prevL.B = anchor.B ∧ prevL.C = anchor.C ∧
              prevL.H = anchor.H ∧ prevL.W = anchor.W then
            .ok (catT anchor (sliceLastT prevL motion_count))
          else .error .catShapeMismatch
        else .ok anchor

/-- Lines 150-170: pad with Wan-format zeros (or truncate) to `tN` slots,
then the defensive re-clamp. -/
def mkImageCond (base : Tensor5) (B C H W tN : Nat) : Tensor5 :=
  let padding_size := tN - base.T
  let img :=
    if 0 < padding_size then
      catT base (wan21ProcessOut (zeros5 B C padding_size H W))
    else
      sliceFirstT base tN
  if img.T ≠ tN then sliceFirstT img tN else img

/-- Lines 176-204: the FLF-style end lock.  Returns the (possibly overwritten)
conditioning latent together with `end_t_fix`. -/
def applyEndLock (img : Tensor5) (B C H W tN : Nat)
    (endd : Option LatentDict) : Except ExecError (Tensor5 × Nat) :=
  match endd with
  | none => .ok (img, 0)
  | some ed =>
    match ed.samples with
    | none => .error .missingSamplesKey
    | some e0 =>
      let endL := if e0.B = 1 ∧ 1 < B then repeatB e0 B else e0
      if endL.C = C ∧ endL.H = H ∧ endL.W = W then
        let fix := min endL.T tN
        if 0 < fix then
          if endL.B = B ∨ endL.B = 1 then
            .ok (writeLastT img endL fix, fix)
          else .error .endAssignBroadcastMismatch
        else .ok (img, fix)
      else .ok (img, 0)

/-- Lines 223-230: the free/locked mask. -/
def mkMask (tN H W fix : Nat) : Tensor5 :=
  let m := setFirstT (ones5 1 1 tN H W) 1 0
  if 0 < fix then setLastT m fix 0 else m

/-- Body of `execute` after the anchor tensor has been extracted. -/
def executeCore (length : Nat) (prev : Option LatentDict) (a : Tensor5)
    (mlc : Nat) (endd : Option LatentDict) : Except ExecError ExecOutput :=
  match mkBase a prev mlc with
  | .error e => .error e
  | .ok base =>
    match applyEndLock (mkImageCond base a.B a.C a.H a.W (totalLatentsN length))
        a.B a.C a.H a.W (totalLatentsN length) endd with
    | .error e => .error e
    | .ok (img2, fix) =>
      .ok
        { image_cond_latent := img2
          mask := mkMask (totalLatentsN length) a.H a.W fix
          empty_latent := zeros5 a.B 16 (totalLatentsN length) a.H a.W }

/-- Lines 92-253: `WanImageToVideoSVIProFLF.execute`.  The `length` input is
a ℕ (the schema enforces `length ≥ 1`); the conditioning records are not
modelled beyond the tensors attached to them (both positive and negative
receive the same `concat_latent_image` and `concat_mask`, the fields of
`ExecOutput`). -/
def execute (length : Nat) (prev : Option LatentDict)
    (anchor : Option LatentDict) (mlc : Nat) (endd : Option LatentDict) :
    Except ExecError ExecOutput :=
  match anchor with
  | none => .error .missingAnchor
  | some ad =>
    match ad.samples with
    | none => .error .missingSamplesKey
    | some a => executeCore length prev a mlc endd

end WanImageToVideoSVIProFLF

/-- The claim-side characterization of `end_t_fix` (C2's words): `0` when
`end_samples` is absent, lacks its tensor, or is shape-incompatible with the
anchor's C/H/W; otherwise `min T_end total_latents`. -/
def endTFixOf (C H W tN : Nat) (endd : Option LatentDict) : Nat :=
  match endd with
  | none => 0
  | some ed =>
    match ed.samples with
    | none => 0
    | some e => if e.C = C ∧ e.H = H ∧ e.W = W then min e.T tN else 0

/-- Whether `WanImageToVideoSVIProFLF.execute` completes without raising. -/
def execOk (length : Nat) (prev anchor : Option LatentDict) (mlc : Nat)
    (endd : Option LatentDict) : Bool :=
  match WanImageToVideoSVIProFLF.execute length prev anchor mlc endd with
  | .ok _ => true
  | .error _ => false

/-- The `concat_latent_image` tensor produced by a successful run (a dummy
empty tensor on failure). -/
def execImgD (length : Nat) (prev anchor : Option LatentDict) (mlc : Nat)
    (endd : Option LatentDict) : Tensor5 :=
  match WanImageToVideoSVIProFLF.execute length prev anchor mlc endd with
  | .ok o => o.image_cond_latent
  | .error _ => zeros5 0 0 0 0 0

/-- The `concat_mask` tensor produced by a successful run (a dummy empty
tensor on failure). -/
def execMaskD (length : Nat) (prev anchor : Option LatentDict) (mlc : Nat)
    (endd : Option LatentDict) : Tensor5 :=
  match WanImageToVideoSVIProFLF.execute length prev anchor mlc endd with
  | .ok o => o.mask
  | .error _ => zeros5 0 0 0 0 0

namespace WanCutLastSlot

/-- Lines 298-320: `WanCutLastSlot.execute`. -/
def execute (latents : LatentDict) (slots_to_cut : Nat) :
    Except ExecError LatentDict :=
  match latents.samples with
  | none => .error .missingSamplesKey
  | some x =>
    let n := max 1 (min slots_to_cut (x.T - 1))
    .ok ⟨some (sliceFirstT x (x.T - n))⟩

end WanCutLastSlot

/-- The temporal length of the trimmed latent returned by
`WanCutLastSlot.execute` (`none` if the node raises). -/
def cutResultT (latents : LatentDict) (slots_to_cut : Nat) : Option Nat :=
  match WanCutLastSlot.execute latents slots_to_cut with
  | .ok d => d.samples.map Tensor5.T
  | .error _ => none

/-! ### Helper lemmas -/

lemma wan21ProcessOut_T (x : Tensor5) : (wan21ProcessOut x).T = x.T := rfl

lemma mkImageCond_T (base : Tensor5) (B C H W tN : Nat) :
    (WanImageToVideoSVIProFLF.mkImageCond base B C H W tN).T = tN := by
  unfold WanImageToVideoSVIProFLF.mkImageCond
  by_cases h : 0 < tN - base.T
  · have h1 : (catT base (wan21ProcessOut (zeros5 B C (tN - base.T) H W))).T = tN := by
      simp only [catT, wan21ProcessOut, zeros5]
      omega
    simp only [h, if_true, h1, ne_eq, not_true_eq_false, if_false]
  · have h1 : (sliceFirstT base tN).T = tN := by
      simp only [sliceFirstT]
      omega
    simp only [h, if_false, h1, ne_eq, not_true_eq_false]

lemma mkMask_B (tN H W fix : Nat) :
    (WanImageToVideoSVIProFLF.mkMask tN H W fix).B = 1 := by
  unfold WanImageToVideoSVIProFLF.mkMask setLastT setFirstT ones5
  split <;> rfl

lemma mkMask_C (tN H W fix : Nat) :
    (WanImageToVideoSVIProFLF.mkMask tN H W fix).C = 1 := by
  unfold WanImageToVideoSVIProFLF.mkMask setLastT setFirstT ones5
  split <;> rfl

lemma mkMask_T (tN H W fix : Nat) :
    (WanImageToVideoSVIProFLF.mkMask tN H W fix).T = tN := by
  unfold WanImageToVideoSVIProFLF.mkMask setLastT setFirstT ones5
  split <;> rfl

lemma mkMask_H (tN H W fix : Nat) :
    (WanImageToVideoSVIProFLF.mkMask tN H W fix).H = H := by
  unfold WanImageToVideoSVIProFLF.mkMask setLastT setFirstT ones5
  split <;> rfl

lemma mkMask_W (tN H W fix : Nat) :
    (WanImageToVideoSVIProFLF.mkMask tN H W fix).W = W := by
  unfold WanImageToVideoSVIProFLF.mkMask setLastT setFirstT ones5
  split <;> rfl

lemma mkMask_data (tN H W fix : Nat) (htN : 0 < tN) (hfix : fix ≤ tN)
    (b c t hh ww : Nat) (ht : t < tN) :
    (WanImageToVideoSVIProFLF.mkMask tN H W fix).data b c t hh ww =
      if t = 0 ∨ tN - fix ≤ t then 0 else 1 := by
  unfold WanImageToVideoSVIProFLF.mkMask setLastT setFirstT ones5
  by_cases h0 : 0 < fix <;>
    simp only [h0, if_true, if_false] <;>
    split_ifs <;> first | rfl | omega



lemma endTFixOf_le (C H W tN : Nat) (endd : Option LatentDict) :
    endTFixOf C H W tN endd ≤ tN := by
  cases endd with
  | none => simp [endTFixOf]
  | some ed =>
    obtain ⟨s⟩ := ed
    cases s with
    | none => simp [endTFixOf]
    | some e =>
      simp only [endTFixOf]
      split
      · exact Nat.min_le_right _ _
      · exact Nat.zero_le _

lemma applyEndLock_ok_fix {img : Tensor5} {B C H W tN : Nat}
    {endd : Option LatentDict} {i2 : Tensor5} {fix : Nat}
    (h : WanImageToVideoSVIProFLF.applyEndLock img B C H W tN endd = .ok (i2, fix)) :
    fix = endTFixOf C H W tN endd ∧ i2.T = img.T := by
  cases endd with
  | none =>
    simp only [WanImageToVideoSVIProFLF.applyEndLock, Except.ok.injEq,
      Prod.mk.injEq] at h
    obtain ⟨hi, hf⟩ := h
    subst hi
    subst hf
    exact ⟨rfl, rfl⟩
  | some ed =>
    obtain ⟨s⟩ := ed
    cases s with
    | none =>
      exact absurd h (by simp [WanImageToVideoSVIProFLF.applyEndLock])
    | some e0 =>
      simp only [WanImageToVideoSVIProFLF.applyEndLock] at h
      simp only [endTFixOf]
      split at h <;> split at h <;> (try split at h) <;> (try split at h) <;>
        first
          | (simp only [Except.ok.injEq, Prod.mk.injEq] at h
             obtain ⟨hi, hf⟩ := h
             subst hi
             subst hf
             refine ⟨?_, rfl⟩
             split <;> simp_all [repeatB])
          | exact absurd h (by simp)

lemma execute_ok_destruct (length : Nat) (prev : Option LatentDict) (a : Tensor5)
    (mlc : Nat) (endd : Option LatentDict)
    (hok : execOk length prev (some ⟨some a⟩) mlc endd = true) :
    ∃ base i2 fix,
      WanImageToVideoSVIProFLF.mkBase a prev mlc = .ok base ∧
      WanImageToVideoSVIProFLF.applyEndLock
        (WanImageToVideoSVIProFLF.mkImageCond base a.B a.C a.H a.W (totalLatentsN length))
        a.B a.C a.H a.W (totalLatentsN length) endd = .ok (i2, fix) ∧
      execImgD length prev (some ⟨some a⟩) mlc endd = i2 ∧
      execMaskD length prev (some ⟨some a⟩) mlc endd =
        WanImageToVideoSVIProFLF.mkMask (totalLatentsN length) a.H a.W fix := by
  unfold execOk at hok
  unfold execImgD execMaskD
  have hexe : WanImageToVideoSVIProFLF.execute length prev (some ⟨some a⟩) mlc endd =
      WanImageToVideoSVIProFLF.executeCore length prev a mlc endd := rfl
  rw [hexe] at hok ⊢
  unfold WanImageToVideoSVIProFLF.executeCore at hok ⊢
  cases hb : WanImageToVideoSVIProFLF.mkBase a prev mlc with
  | error e =>
    simp only [hb] at hok
    exact absurd hok Bool.false_ne_true
  | ok base =>
    simp only [hb] at hok ⊢
    cases ha : WanImageToVideoSVIProFLF.applyEndLock
        (WanImageToVideoSVIProFLF.mkImageCond base a.B a.C a.H a.W (totalLatentsN length))
        a.B a.C a.H a.W (totalLatentsN length) endd with
    | error e =>
      simp only [ha] at hok
      exact absurd hok Bool.false_ne_true
    | ok p =>
      obtain ⟨i2, fix⟩ := p
      simp only [ha]
      exact ⟨base, i2, fix, rfl, ha, rfl, rfl⟩

lemma fdiv_four_eq_floor (a : Int) : a.fdiv 4 = ⌊(a : ℚ) / 4⌋ := by
  rw [Int.fdiv_eq_ediv _ (by norm_num)]
  have h := Rat.floor_intCast_div_natCast a 4
  rw [show ((4 : ℕ) : ℤ) = (4 : ℤ) by norm_num,
    show ((4 : ℕ) : ℚ) = (4 : ℚ) by norm_num] at h
  exact h.symm

/-! ### C1 -/

/-- C1: refuted at T = 1 (code bug).  The claim says `WanCutLastSlot.execute`
always returns a block of temporal length ≥ 1 (matching the code's own
docstring "so at least 1 slot always remains"), but on a latent with a single
temporal slot and `slots_to_cut = 1` (the schema minimum) the code computes
`n = max(1, min(1, 0)) = 1` and returns an empty block with T = 0. -/
theorem C1_trim_empty_at_T_one :
    cutResultT ⟨some (zeros5 1 1 1 1 1)⟩ 1 = some 0 := rfl

/-! ### C4 -/

/-- C4: for every integer `length`, line 120 computes
`total_latents = ⌊(length - 1) / 4⌋ + 1`, and the five quoted examples hold. -/
theorem C4_total_latents :
    (∀ length : Int, totalLatentsZ length = ⌊(((length : ℚ) - 1) / 4)⌋ + 1) ∧
    totalLatentsZ 81 = 21 ∧ totalLatentsZ 41 = 11 ∧ totalLatentsZ 1 = 1 ∧
    totalLatentsZ 4 = 1 ∧ totalLatentsZ 5 = 2 := by
  refine ⟨?_, rfl, rfl, rfl, rfl, rfl⟩
  intro L
  unfold totalLatentsZ
  rw [fdiv_four_eq_floor]
  norm_num

/-! ### C9 -/

/-- C9: an `end_samples` block with batch 2 against a working batch of 1
(channel, height, width and `T_end = total_latents = 1` all compatible) makes
the slot-overwrite raise: the batch-broadcast step at line 183 only repeats
end blocks whose batch size is exactly 1, so the assignment at line 201 fails
to broadcast batch 2 into batch 1. -/
theorem C9_end_batch_mismatch_raises :
    WanImageToVideoSVIProFLF.execute 1 none (some ⟨some (zeros5 1 1 1 1 1)⟩) 1
      (some ⟨some (zeros5 2 1 1 1 1)⟩) =
      .error .endAssignBroadcastMismatch := rfl

/-! ### C8 -/

/-- C8 counterexample: the claim says execution fails exactly when
`anchor_samples` is missing or an input latent container lacks the
`"samples"` key; but a `prev_samples` container lacking the key succeeds when
`motion_latent_count = 0`, because the code never accesses it. -/
theorem C8_counterexample_unaccessed_prev :
    execOk 81 (some ⟨none⟩) (some ⟨some (zeros5 1 1 1 1 1)⟩) 0 none = true := rfl

/-- C8 (amended): execution fails, with no fallback result, whenever the
required `anchor_samples` is missing, or a latent container whose `samples`
tensor the code actually accesses lacks the key: the anchor always, a present
`prev_samples` when `motion_latent_count ≥ 1`, and a present `end_samples`. -/
theorem C8_failure_propagation (length : Nat) (prev anc endd : Option LatentDict)
    (mlc : Nat) :
    (anc = none → execOk length prev anc mlc endd = false) ∧
    (∀ ad, anc = some ad → ad.samples = none →
      execOk length prev anc mlc endd = false) ∧
    (∀ pd, prev = some pd → pd.samples = none → 1 ≤ mlc →
      execOk length prev anc mlc endd = false) ∧
    (∀ ed, endd = some ed → ed.samples = none →
      execOk length prev anc mlc endd = false) := by
  refine ⟨?_, ?_, ?_, ?_⟩
  · intro h
    subst h
    rfl
  · intro ad h hs
    subst h
    obtain ⟨s⟩ := ad
    cases s with
    | none => rfl
    | some x => simp at hs
  · intro pd h hs hm
    subst h
    obtain ⟨sp⟩ := pd
    cases sp with
    | some x => simp at hs
    | none =>
      cases anc with
      | none => rfl
      | some ad =>
        obtain ⟨sa⟩ := ad
        cases sa with
        | none => rfl
        | some a =>
          have hmk : WanImageToVideoSVIProFLF.mkBase a (some ⟨none⟩) mlc =
              .error .missingSamplesKey := by
            unfold WanImageToVideoSVIProFLF.mkBase
            dsimp only
            rw [if_neg (show ¬mlc = 0 by omega)]
          unfold execOk
          have hexe : WanImageToVideoSVIProFLF.execute length (some ⟨none⟩)
              (some ⟨some a⟩) mlc endd =
              WanImageToVideoSVIProFLF.executeCore length (some ⟨none⟩) a mlc endd := rfl
          rw [hexe]
          unfold WanImageToVideoSVIProFLF.executeCore
          simp only [hmk]
  · intro ed h hs
    subst h
    obtain ⟨se⟩ := ed
    cases se with
    | some x => simp at hs
    | none =>
      cases anc with
      | none => rfl
      | some ad =>
        obtain ⟨sa⟩ := ad
        cases sa with
        | none => rfl
        | some a =>
          unfold execOk
          have hexe : WanImageToVideoSVIProFLF.execute length prev
              (some ⟨some a⟩) mlc (some ⟨none⟩) =
              WanImageToVideoSVIProFLF.executeCore length prev a mlc (some ⟨none⟩) := rfl
          rw [hexe]
          unfold WanImageToVideoSVIProFLF.executeCore
          cases hb : WanImageToVideoSVIProFLF.mkBase a prev mlc with
          | error e => simp only [hb]
          | ok base =>
            simp only [hb]
            have hal : WanImageToVideoSVIProFLF.applyEndLock
                (WanImageToVideoSVIProFLF.mkImageCond base a.B a.C a.H a.W
                  (totalLatentsN length))
                a.B a.C a.H a.W (totalLatentsN length) (some ⟨none⟩) =
                .error .missingSamplesKey := rfl
            simp only [hal]

/-- C8 witness: the amended failure conditions at a concrete input: a missing
anchor makes the node fail. -/
theorem C8_failure_propagation_witness :
    execOk 81 none none 1 none = false :=
  (C8_failure_propagation 81 none none none 1).1 rfl

/-! ### C2 -/

/-- C2: for every completing invocation with `length ≥ 1` the produced mask
has shape `(1, 1, total_latents, H, W)` and value `0` at temporal slot 0, `0`
at each of the last `end_t_fix = min(T_end, total_latents)` slots when
`end_samples` is present and shape-compatible with the anchor's C/H/W, and
`1` at every other slot. -/
theorem C2_mask_values (length : Nat) (prev anc endd : Option LatentDict)
    (mlc : Nat) (a : Tensor5) (ha : anc = some ⟨some a⟩) (hlen : 1 ≤ length)
    (hok : execOk length prev anc mlc endd = true) :
    (execMaskD length prev anc mlc endd).B = 1 ∧
    (execMaskD length prev anc mlc endd).C = 1 ∧
    (execMaskD length prev anc mlc endd).T = totalLatentsN length ∧
    (execMaskD length prev anc mlc endd).H = a.H ∧
    (execMaskD length prev anc mlc endd).W = a.W ∧
    ∀ t, t < totalLatentsN length → ∀ hh, hh < a.H → ∀ ww, ww < a.W →
      (execMaskD length prev anc mlc endd).data 0 0 t hh ww =
        if t = 0 ∨
            totalLatentsN length -
              endTFixOf a.C a.H a.W (totalLatentsN length) endd ≤ t
        then 0 else 1 := by
  subst ha
  obtain ⟨base, i2, fix, hb, hal, himg, hmask⟩ :=
    execute_ok_destruct length prev a mlc endd hok
  obtain ⟨hfix, -⟩ := applyEndLock_ok_fix hal
  rw [hmask, hfix]
  have htN : 0 < totalLatentsN length := by
    unfold totalLatentsN
    omega
  refine ⟨mkMask_B _ _ _ _, mkMask_C _ _ _ _, mkMask_T _ _ _ _,
    mkMask_H _ _ _ _, mkMask_W _ _ _ _, ?_⟩
  intro t ht hh _ ww _
  exact mkMask_data _ _ _ _ htN (endTFixOf_le _ _ _ _ _) 0 0 t hh ww ht

/-- C2 witness: concrete run with length 13 (4 slots), a 1-slot compatible
end block: mask slots are 0, 1, 1, 0. -/
theorem C2_mask_values_witness :
    (execMaskD 13 none (some ⟨some (zeros5 1 1 1 1 1)⟩) 0
      (some ⟨some (zeros5 1 1 1 1 1)⟩)).B = 1 ∧
    (execMaskD 13 none (some ⟨some (zeros5 1 1 1 1 1)⟩) 0
      (some ⟨some (zeros5 1 1 1 1 1)⟩)).C = 1 ∧
    (execMaskD 13 none (some ⟨some (zeros5 1 1 1 1 1)⟩) 0
      (some ⟨some (zeros5 1 1 1 1 1)⟩)).T = totalLatentsN 13 ∧
    (execMaskD 13 none (some ⟨some (zeros5 1 1 1 1 1)⟩) 0
      (some ⟨some (zeros5 1 1 1 1 1)⟩)).H = (zeros5 1 1 1 1 1).H ∧
    (execMaskD 13 none (some ⟨some (zeros5 1 1 1 1 1)⟩) 0
      (some ⟨some (zeros5 1 1 1 1 1)⟩)).W = (zeros5 1 1 1 1 1).W ∧
    ∀ t, t < totalLatentsN 13 →
      ∀ hh, hh < (zeros5 1 1 1 1 1).H → ∀ ww, ww < (zeros5 1 1 1 1 1).W →
      (execMaskD 13 none (some ⟨some (zeros5 1 1 1 1 1)⟩) 0
        (some ⟨some (zeros5 1 1 1 1 1)⟩)).data 0 0 t hh ww =
        if t = 0 ∨
            totalLatentsN 13 -
              endTFixOf (zeros5 1 1 1 1 1).C (zeros5 1 1 1 1 1).H
                (zeros5 1 1 1 1 1).W (totalLatentsN 13)
                (some ⟨some (zeros5 1 1 1 1 1)⟩) ≤ t
        then 0 else 1 :=
  C2_mask_values 13 none (some ⟨some (zeros5 1 1 1 1 1)⟩)
    (some ⟨some (zeros5 1 1 1 1 1)⟩) 0 (zeros5 1 1 1 1 1) rfl
    (by decide) (by decide)

/-! ### C3 -/

/-- C3: for every completing invocation with `length ≥ 1`, the assembled
`concat_latent_image` has temporal dimension exactly `total_latents`
(whatever T_anchor, T_prev, motion_latent_count and T_end are), and the
mask's temporal dimension equals the assembled block's. -/
theorem C3_temporal_dims (length : Nat) (prev anc endd : Option LatentDict)
    (mlc : Nat) (a : Tensor5) (ha : anc = some ⟨some a⟩) (hlen : 1 ≤ length)
    (hok : execOk length prev anc mlc endd = true) :
    (execImgD length prev anc mlc endd).T = totalLatentsN length ∧
    (execMaskD length prev anc mlc endd).T =
      (execImgD length prev anc mlc endd).T := by
  subst ha
  obtain ⟨base, i2, fix, hb, hal, himg, hmask⟩ :=
    execute_ok_destruct length prev a mlc endd hok
  obtain ⟨-, hT⟩ := applyEndLock_ok_fix hal
  rw [himg, hmask, hT, mkImageCond_T, mkMask_T]
  exact ⟨rfl, rfl⟩

/-- C3 witness: concrete run covering the motion-tail and padding paths:
anchor T=1, prev T=3, motion_latent_count=2, length=21 (6 slots). -/
theorem C3_temporal_dims_witness :
    (execImgD 21 (some ⟨some (zeros5 1 4 3 1 1)⟩) (some ⟨some (zeros5 1 4 1 1 1)⟩)
      2 none).T = totalLatentsN 21 ∧
    (execMaskD 21 (some ⟨some (zeros5 1 4 3 1 1)⟩) (some ⟨some (zeros5 1 4 1 1 1)⟩)
      2 none).T =
      (execImgD 21 (some ⟨some (zeros5 1 4 3 1 1)⟩) (some ⟨some (zeros5 1 4 1 1 1)⟩)
        2 none).T :=
  C3_temporal_dims 21 (some ⟨some (zeros5 1 4 3 1 1)⟩)
    (some ⟨some (zeros5 1 4 1 1 1)⟩) none 2 (zeros5 1 4 1 1 1) rfl
    (by decide) (by decide)

/-! ### C5 -/

/-- Whether lines 128-148 complete without raising. -/
def mkBaseOk (anchor : Tensor5) (prev : Option LatentDict) (mlc : Nat) : Bool :=
  match WanImageToVideoSVIProFLF.mkBase anchor prev mlc with
  | .ok _ => true
  | .error _ => false

/-- The base block built by lines 128-148 (a dummy empty tensor on failure). -/
def mkBaseD (anchor : Tensor5) (prev : Option LatentDict) (mlc : Nat) : Tensor5 :=
  match WanImageToVideoSVIProFLF.mkBase anchor prev mlc with
  | .ok b => b
  | .error _ => zeros5 0 0 0 0 0

/-- C5: with `prev_samples` absent or `motion_latent_count = 0` the base block
is the anchor alone; otherwise (for blocks shape-compatible with the anchor)
exactly `motion_count = min(motion_latent_count, T_prev)` trailing slots of
`prev_samples` are concatenated after the anchor, giving
`T_base = T_anchor + motion_count`, without raising - the clamp to `T_prev`
never errors. -/
theorem C5_motion_tail (a : Tensor5) (prev : Option LatentDict) (mlc : Nat) :
    ((prev = none ∨ mlc = 0) →
      WanImageToVideoSVIProFLF.mkBase a prev mlc = .ok a) ∧
    (∀ p, prev = some ⟨some p⟩ → 1 ≤ mlc →
      p.B = a.B → p.C = a.C → p.H = a.H → p.W = a.W →
      mkBaseOk a prev mlc = true ∧
      (mkBaseD a prev mlc).T = a.T + min mlc p.T ∧
      (∀ b c t hh ww, t < a.T →
        (mkBaseD a prev mlc).data b c t hh ww = a.data b c t hh ww) ∧
      (∀ b c i hh ww, i < min mlc p.T →
        (mkBaseD a prev mlc).data b c (a.T + i) hh ww =
          p.data b c (p.T - min mlc p.T + i) hh ww)) := by
  constructor
  · rintro (rfl | rfl)
    · rfl
    · cases prev with
      | none => rfl
      | some pd =>
        unfold WanImageToVideoSVIProFLF.mkBase
        dsimp only
        rw [if_pos rfl]
  · rintro p rfl hm hB hC hH hW
    have hmk : WanImageToVideoSVIProFLF.mkBase a (some ⟨some p⟩) mlc =
        if 0 < min mlc p.T then .ok (catT a (sliceLastT p (min mlc p.T)))
        else .ok a := by
      unfold WanImageToVideoSVIProFLF.mkBase
      dsimp only
      rw [if_neg (show ¬mlc = 0 by omega)]
      split
      · rw [if_pos ⟨hB, hC, hH, hW⟩]
      · rfl
    by_cases hmc : 0 < min mlc p.T
    · rw [if_pos hmc] at hmk
      have hD : mkBaseD a (some ⟨some p⟩) mlc =
          catT a (sliceLastT p (min mlc p.T)) := by
        unfold mkBaseD
        rw [hmk]
      have hsl : sliceLastT p (min mlc p.T) =
          { p with
            T := min (min mlc p.T) p.T
            data := fun b c t h w =>
              p.data b c (p.T - min (min mlc p.T) p.T + t) h w } := by
        unfold sliceLastT
        rw [if_neg (by omega)]
      have hmin : min (min mlc p.T) p.T = min mlc p.T :=
        Nat.min_eq_left (Nat.min_le_right _ _)
      refine ⟨by unfold mkBaseOk; rw [hmk], ?_, ?_, ?_⟩
      · rw [hD, hsl]
        simp only [catT, hmin]
      · intro b c t hh ww ht
        rw [hD]
        simp only [catT]
        rw [if_pos ht]
      · intro b c i hh ww hi
        rw [hD, hsl]
        simp only [catT, hmin]
        rw [if_neg (by omega)]
        congr 1
        omega
    · rw [if_neg hmc] at hmk
      have h0 : min mlc p.T = 0 := by omega
      refine ⟨by unfold mkBaseOk; rw [hmk], ?_, ?_, ?_⟩
      · unfold mkBaseD
        rw [hmk, h0]
        rfl
      · intro b c t hh ww ht
        unfold mkBaseD
        rw [hmk]
      · intro b c i hh ww hi
        rw [h0] at hi
        exact absurd hi (Nat.not_lt_zero _)

/-- C5 witness: the claim's own example: T_prev = 2 with
`motion_latent_count = 5` uses exactly 2 trailing slots and never raises;
the prev block's data marks slot positions so the copied slots are visible. -/
theorem C5_motion_tail_witness :
    mkBaseOk (zeros5 1 1 1 1 1) (some ⟨some ⟨1, 1, 2, 1, 1, fun _ _ t _ _ => t⟩⟩) 5 = true ∧
    (mkBaseD (zeros5 1 1 1 1 1) (some ⟨some ⟨1, 1, 2, 1, 1, fun _ _ t _ _ => t⟩⟩) 5).T =
      (zeros5 1 1 1 1 1).T + min 5 (⟨1, 1, 2, 1, 1, fun _ _ t _ _ => t⟩ : Tensor5).T ∧
    (∀ b c t hh ww, t < (zeros5 1 1 1 1 1).T →
      (mkBaseD (zeros5 1 1 1 1 1) (some ⟨some ⟨1, 1, 2, 1, 1, fun _ _ t _ _ => t⟩⟩) 5).data
          b c t hh ww = (zeros5 1 1 1 1 1).data b c t hh ww) ∧
    (∀ b c i hh ww, i < min 5 (⟨1, 1, 2, 1, 1, fun _ _ t _ _ => t⟩ : Tensor5).T →
      (mkBaseD (zeros5 1 1 1 1 1) (some ⟨some ⟨1, 1, 2, 1, 1, fun _ _ t _ _ => t⟩⟩) 5).data
          b c ((zeros5 1 1 1 1 1).T + i) hh ww =
        (⟨1, 1, 2, 1, 1, fun _ _ t _ _ => t⟩ : Tensor5).data b c
          ((⟨1, 1, 2, 1, 1, fun _ _ t _ _ => t⟩ : Tensor5).T -
            min 5 (⟨1, 1, 2, 1, 1, fun _ _ t _ _ => t⟩ : Tensor5).T + i) hh ww) :=
  (C5_motion_tail (zeros5 1 1 1 1 1)
    (some ⟨some ⟨1, 1, 2, 1, 1, fun _ _ t _ _ => t⟩⟩) 5).2
    ⟨1, 1, 2, 1, 1, fun _ _ t _ _ => t⟩ rfl (by decide) rfl rfl rfl rfl

lemma applyEndLock_mismatch {img : Tensor5} {B C H W tN : Nat} {e : Tensor5}
    (hmis : ¬(e.C = C ∧ e.H = H ∧ e.W = W)) :
    WanImageToVideoSVIProFLF.applyEndLock img B C H W tN (some ⟨some e⟩) =
      .ok (img, 0) := by
  unfold WanImageToVideoSVIProFLF.applyEndLock
  dsimp only
  have hC : (if e.B = 1 ∧ 1 < B then repeatB e B else e).C = e.C := by
    split <;> rfl
  have hH : (if e.B = 1 ∧ 1 < B then repeatB e B else e).H = e.H := by
    split <;> rfl
  have hW : (if e.B = 1 ∧ 1 < B then repeatB e B else e).W = e.W := by
    split <;> rfl
  rw [hC, hH, hW, if_neg hmis]

/-! ### C6 -/

/-- C6: an `end_samples` block whose channel, height or width differs from the
anchor's makes end-locking a silent no-op: the run is identical to the run
with no `end_samples` at all (so nothing is raised that would not be raised
anyway), `end_t_fix = 0`, and when the run completes the mask locks only
slot 0. -/
theorem C6_end_mismatch_noop (length : Nat) (prev anc : Option LatentDict)
    (mlc : Nat) (ed : LatentDict) (a e : Tensor5)
    (ha : anc = some ⟨some a⟩) (he : ed = ⟨some e⟩)
    (hmis : ¬(e.C = a.C ∧ e.H = a.H ∧ e.W = a.W)) (hlen : 1 ≤ length) :
    WanImageToVideoSVIProFLF.execute length prev anc mlc (some ed) =
      WanImageToVideoSVIProFLF.execute length prev anc mlc none ∧
    endTFixOf a.C a.H a.W (totalLatentsN length) (some ed) = 0 ∧
    (execOk length prev anc mlc (some ed) = true →
      ∀ t, t < totalLatentsN length → ∀ hh, hh < a.H → ∀ ww, ww < a.W →
        (execMaskD length prev anc mlc (some ed)).data 0 0 t hh ww =
          if t = 0 then 0 else 1) := by
  subst ha
  subst he
  have hEq : WanImageToVideoSVIProFLF.execute length prev (some ⟨some a⟩) mlc
      (some ⟨some e⟩) =
      WanImageToVideoSVIProFLF.execute length prev (some ⟨some a⟩) mlc none := by
    have h1 : WanImageToVideoSVIProFLF.execute length prev (some ⟨some a⟩) mlc
        (some ⟨some e⟩) =
        WanImageToVideoSVIProFLF.executeCore length prev a mlc (some ⟨some e⟩) := rfl
    have h2 : WanImageToVideoSVIProFLF.execute length prev (some ⟨some a⟩) mlc none =
        WanImageToVideoSVIProFLF.executeCore length prev a mlc none := rfl
    rw [h1, h2]
    unfold WanImageToVideoSVIProFLF.executeCore
    cases hb : WanImageToVideoSVIProFLF.mkBase a prev mlc with
    | error er => rfl
    | ok base =>
      simp only
      rw [applyEndLock_mismatch hmis]
      rfl
  refine ⟨hEq, ?_, ?_⟩
  · unfold endTFixOf
    dsimp only
    rw [if_neg hmis]
  · intro hok t ht hh _ ww _
    obtain ⟨base, i2, fix, hb, hal, himg, hmask⟩ :=
      execute_ok_destruct length prev a mlc (some ⟨some e⟩) hok
    rw [applyEndLock_mismatch hmis] at hal
    have hfix : fix = 0 := by
      have := (Except.ok.injEq _ _).mp hal
      exact (Prod.mk.injEq _ _ _ _ |>.mp this).2.symm
    rw [hmask, hfix]
    have htN : 0 < totalLatentsN length := by
      unfold totalLatentsN
      omega
    rw [mkMask_data _ _ _ _ htN (Nat.zero_le _) 0 0 t hh ww ht]
    by_cases ht0 : t = 0
    · rw [if_pos (Or.inl ht0), if_pos ht0]
    · rw [if_neg, if_neg ht0]
      rintro (h | h)
      · exact ht0 h
      · omega

/-- C6 witness: channel count 2 vs the anchor's 1: the run equals the
end-free run, `end_t_fix = 0`, and the mask locks slot 0 only. -/
theorem C6_end_mismatch_noop_witness :
    WanImageToVideoSVIProFLF.execute 13 none (some ⟨some (zeros5 1 1 1 1 1)⟩) 0
      (some ⟨some (zeros5 1 2 1 1 1)⟩) =
      WanImageToVideoSVIProFLF.execute 13 none (some ⟨some (zeros5 1 1 1 1 1)⟩) 0
        none ∧
    endTFixOf (zeros5 1 1 1 1 1).C (zeros5 1 1 1 1 1).H (zeros5 1 1 1 1 1).W
      (totalLatentsN 13) (some ⟨some (zeros5 1 2 1 1 1)⟩) = 0 ∧
    (execOk 13 none (some ⟨some (zeros5 1 1 1 1 1)⟩) 0
        (some ⟨some (zeros5 1 2 1 1 1)⟩) = true →
      ∀ t, t < totalLatentsN 13 →
        ∀ hh, hh < (zeros5 1 1 1 1 1).H → ∀ ww, ww < (zeros5 1 1 1 1 1).W →
        (execMaskD 13 none (some ⟨some (zeros5 1 1 1 1 1)⟩) 0
          (some ⟨some (zeros5 1 2 1 1 1)⟩)).data 0 0 t hh ww =
          if t = 0 then 0 else 1) :=
  C6_end_mismatch_noop 13 none (some ⟨some (zeros5 1 1 1 1 1)⟩) 0
    ⟨some (zeros5 1 2 1 1 1)⟩ (zeros5 1 1 1 1 1) (zeros5 1 2 1 1 1) rfl rfl
    (by decide) (by decide)

/-! ### C7 -/

/-- C7: whenever `T_base < total_latents`, the `total_latents - T_base`
padding slots appended after the base sequence each equal the collaborator
zero-signal encoding applied to an all-zero tensor
(`Wan21().process_out(torch.zeros(...))`), which is not the raw numeric zero
tensor (the channel-0 blank-frame value is nonzero). -/
theorem C7_padding_encode_zero (base : Tensor5) (B C H W tN : Nat)
    (hpad : base.T < tN) :
    (WanImageToVideoSVIProFLF.mkImageCond base B C H W tN).T = tN ∧
    (∀ b c t hh ww, t < base.T →
      (WanImageToVideoSVIProFLF.mkImageCond base B C H W tN).data b c t hh ww =
        base.data b c t hh ww) ∧
    (∀ b c t hh ww, base.T ≤ t → t < tN →
      (WanImageToVideoSVIProFLF.mkImageCond base B C H W tN).data b c t hh ww =
        (wan21ProcessOut (zeros5 B C (tN - base.T) H W)).data b c (t - base.T) hh ww) ∧
    wanLatentsMean 0 ≠ 0 := by
  have h0 : 0 < tN - base.T := by omega
  have hcatT : (catT base (wan21ProcessOut (zeros5 B C (tN - base.T) H W))).T = tN := by
    simp only [catT, wan21ProcessOut, zeros5]
    omega
  have himg : WanImageToVideoSVIProFLF.mkImageCond base B C H W tN =
      catT base (wan21ProcessOut (zeros5 B C (tN - base.T) H W)) := by
    unfold WanImageToVideoSVIProFLF.mkImageCond
    dsimp only
    rw [if_pos h0, if_neg (by omega)]
  rw [himg]
  refine ⟨hcatT, ?_, ?_, ?_⟩
  · intro b c t hh ww ht
    simp only [catT]
    rw [if_pos ht]
  · intro b c t hh ww ht1 ht2
    simp only [catT]
    rw [if_neg (by omega)]
  · norm_num [wanLatentsMean]

/-- C7 witness: a 1-slot base block of constant value 3 padded to 2 slots:
the shape, the preserved base slot, the padding slot and the nonzero
blank-frame value, all at the concrete input. -/
theorem C7_padding_encode_zero_witness :
    (WanImageToVideoSVIProFLF.mkImageCond ⟨1, 1, 1, 1, 1, fun _ _ _ _ _ => 3⟩
      1 1 1 1 2).T = 2 ∧
    (∀ b c t hh ww, t < (⟨1, 1, 1, 1, 1, fun _ _ _ _ _ => 3⟩ : Tensor5).T →
      (WanImageToVideoSVIProFLF.mkImageCond ⟨1, 1, 1, 1, 1, fun _ _ _ _ _ => 3⟩
        1 1 1 1 2).data b c t hh ww =
        (⟨1, 1, 1, 1, 1, fun _ _ _ _ _ => 3⟩ : Tensor5).data b c t hh ww) ∧
    (∀ b c t hh ww, (⟨1, 1, 1, 1, 1, fun _ _ _ _ _ => 3⟩ : Tensor5).T ≤ t → t < 2 →
      (WanImageToVideoSVIProFLF.mkImageCond ⟨1, 1, 1, 1, 1, fun _ _ _ _ _ => 3⟩
        1 1 1 1 2).data b c t hh ww =
        (wan21ProcessOut (zeros5 1 1
          (2 - (⟨1, 1, 1, 1, 1, fun _ _ _ _ _ => 3⟩ : Tensor5).T) 1 1)).data b c
          (t - (⟨1, 1, 1, 1, 1, fun _ _ _ _ _ => 3⟩ : Tensor5).T) hh ww) ∧
    wanLatentsMean 0 ≠ 0 :=
  C7_padding_encode_zero ⟨1, 1, 1, 1, 1, fun _ _ _ _ _ => 3⟩ 1 1 1 1 2
    (by decide)

lemma applyEndLock_compat {img : Tensor5} {B C H W tN : Nat} {e : Tensor5}
    (hcomp : e.C = C ∧ e.H = H ∧ e.W = W) (hT : tN ≤ e.T) (htN : 0 < tN) :
    WanImageToVideoSVIProFLF.applyEndLock img B C H W tN (some ⟨some e⟩) =
      (if (if e.B = 1 ∧ 1 < B then repeatB e B else e).B = B ∨
          (if e.B = 1 ∧ 1 < B then repeatB e B else e).B = 1 then
        .ok (writeLastT img (if e.B = 1 ∧ 1 < B then repeatB e B else e) tN, tN)
      else .error .endAssignBroadcastMismatch) := by
  unfold WanImageToVideoSVIProFLF.applyEndLock
  dsimp only
  have hmin : e.T ⊓ tN = tN := by omega
  by_cases hrep : e.B = 1 ∧ 1 < B
  · rw [if_pos hrep]
    rw [show (repeatB e B).C = e.C from rfl, show (repeatB e B).H = e.H from rfl,
      show (repeatB e B).W = e.W from rfl, show (repeatB e B).T = e.T from rfl,
      if_pos hcomp, hmin, if_pos htN]
  · rw [if_neg hrep]
    rw [if_pos hcomp, hmin, if_pos htN]

/-! ### C10 -/

/-- C10: with a shape-compatible `end_samples` whose `T_end ≥ total_latents`,
every temporal slot of the assembled `concat_latent_image` - slot 0, the
anchor slot, included - equals the corresponding slot of the last
`total_latents` slots of the end block (batch-broadcast when its batch is 1),
and the mask is `0` at every temporal slot. -/
theorem C10_full_end_lock (length : Nat) (prev anc : Option LatentDict)
    (mlc : Nat) (ed : LatentDict) (a e : Tensor5)
    (ha : anc = some ⟨some a⟩) (he : ed = ⟨some e⟩) (hlen : 1 ≤ length)
    (hcomp : e.C = a.C ∧ e.H = a.H ∧ e.W = a.W)
    (hT : totalLatentsN length ≤ e.T)
    (hok : execOk length prev anc mlc (some ed) = true) :
    (∀ b c t hh ww, t < totalLatentsN length →
      (execImgD length prev anc mlc (some ed)).data b c t hh ww =
        e.data (if e.B = 1 then 0 else b) c
          (e.T - totalLatentsN length + t) hh ww) ∧
    (∀ t hh ww, t < totalLatentsN length → hh < a.H → ww < a.W →
      (execMaskD length prev anc mlc (some ed)).data 0 0 t hh ww = 0) := by
  subst ha
  subst he
  obtain ⟨base, i2, fix, hb, hal, himg, hmask⟩ :=
    execute_ok_destruct length prev a mlc (some ⟨some e⟩) hok
  have htN : 0 < totalLatentsN length := by
    unfold totalLatentsN
    omega
  have himgT : (WanImageToVideoSVIProFLF.mkImageCond base a.B a.C a.H a.W
      (totalLatentsN length)).T = totalLatentsN length :=
    mkImageCond_T _ _ _ _ _ _
  rw [applyEndLock_compat hcomp hT htN] at hal
  by_cases hbc : (if e.B = 1 ∧ 1 < a.B then repeatB e a.B else e).B = a.B ∨
      (if e.B = 1 ∧ 1 < a.B then repeatB e a.B else e).B = 1
  case neg =>
    rw [if_neg hbc] at hal
    simp at hal
  case pos =>
    rw [if_pos hbc] at hal
    simp only [Except.ok.injEq, Prod.mk.injEq] at hal
    obtain ⟨hi2, hfix⟩ := hal
    constructor
    · intro b c t hh ww ht
      rw [himg, ← hi2]
      by_cases hrep : e.B = 1 ∧ 1 < a.B
      · rw [if_pos hrep]
        simp only [writeLastT, repeatB, himgT, Nat.sub_self, Nat.sub_zero,
          hrep.1, Nat.mod_one]
        rw [if_pos ⟨Nat.zero_le _, ht⟩, if_pos trivial]
      · rw [if_neg hrep]
        simp only [writeLastT, himgT, Nat.sub_self, Nat.sub_zero]
        rw [if_pos ⟨Nat.zero_le _, ht⟩]
    · intro t hh ww ht hhh hww
      rw [hmask, ← hfix]
      rw [mkMask_data _ _ _ _ htN (le_refl _) 0 0 t hh ww ht]
      rw [if_pos (Or.inr (by omega))]

/-- C10 witness: anchor of constant value 5, end block of T = 3 whose data
marks slot indices, length 5 (2 slots): every output slot comes from the end
block's last 2 slots and the mask is all zero. -/
theorem C10_full_end_lock_witness :
    (∀ b c t hh ww, t < totalLatentsN 5 →
      (execImgD 5 none (some ⟨some ⟨1, 1, 1, 1, 1, fun _ _ _ _ _ => 5⟩⟩) 0
        (some ⟨some ⟨1, 1, 3, 1, 1, fun _ _ t _ _ => t⟩⟩)).data b c t hh ww =
        (⟨1, 1, 3, 1, 1, fun _ _ t _ _ => t⟩ : Tensor5).data
          (if (⟨1, 1, 3, 1, 1, fun _ _ t _ _ => t⟩ : Tensor5).B = 1 then 0 else b) c
          ((⟨1, 1, 3, 1, 1, fun _ _ t _ _ => t⟩ : Tensor5).T - totalLatentsN 5 + t)
          hh ww) ∧
    (∀ t hh ww, t < totalLatentsN 5 →
      hh < (⟨1, 1, 1, 1, 1, fun _ _ _ _ _ => 5⟩ : Tensor5).H →
      ww < (⟨1, 1, 1, 1, 1, fun _ _ _ _ _ => 5⟩ : Tensor5).W →
      (execMaskD 5 none (some ⟨some ⟨1, 1, 1, 1, 1, fun _ _ _ _ _ => 5⟩⟩) 0
        (some ⟨some ⟨1, 1, 3, 1, 1, fun _ _ t _ _ => t⟩⟩)).data 0 0 t hh ww = 0) :=
  C10_full_end_lock 5 none (some ⟨some ⟨1, 1, 1, 1, 1, fun _ _ _ _ _ => 5⟩⟩) 0
    ⟨some ⟨1, 1, 3, 1, 1, fun _ _ t _ _ => t⟩⟩
    ⟨1, 1, 1, 1, 1, fun _ _ _ _ _ => 5⟩ ⟨1, 1, 3, 1, 1, fun _ _ t _ _ => t⟩
    rfl rfl (by decide) ⟨rfl, rfl, rfl⟩ (by decide) (by decide)
